import Mathlib

/-!
Shallow embedding of a minimal MLOps system consisting of two processes:

* a training job (`src/dags/train_pipeline.py`): loads a CSV dataset,
  label-encodes the `smoker` column, fits a logistic-regression classifier
  and serializes it to a fixed path;
* a serving endpoint (`src/api/main.py`): loads the serialized model at
  startup (fatal if absent) and exposes `GET /health` and `POST /predict`.

Dataframes are modelled column-oriented as association lists from column
name to the list of cell values (CSV cells are strings).  The filesystem is
modelled as a partial map from paths to serialized model artifacts.
Exceptions are modelled as `Except String`.
-/

/-- A pandas-style dataframe: ordered columns, each a name with its cells. -/
abbrev Df : Type := List (String × List String)

/-- Column names of a dataframe, in order (`df.columns`). -/
def Df.columns (df : Df) : List String := df.map Prod.fst

/-- Column access `df[name]`: the first column with that name, KeyError if absent. -/
def Df.getCol (df : Df) (name : String) : Except String (List String) :=
  match df.find? (fun c => c.1 == name) with
  | some c => .ok c.2
  | none => .error ("KeyError: " ++ name)

/-- Pandas `df.drop(columns=names)`: removes the listed columns, raising a
KeyError when any of them is absent (the default `errors='raise'`). -/
def Df.drop (df : Df) (names : List String) : Except String Df :=
  if names.all (fun n => (df.columns).contains n) then
    .ok (df.filter (fun c => !(names.contains c.1)))
  else
    .error "KeyError: not found in axis"

/-- The distinct values of a list in order of first appearance
(accumulator of values already seen). -/
def distinctFirstSeenAux [BEq α] (seen : List α) : List α → List α
  | [] => []
  | x :: xs =>
    if seen.contains x then distinctFirstSeenAux seen xs
    else x :: distinctFirstSeenAux (x :: seen) xs

/-- The distinct values of a list in order of first appearance. -/
def distinctFirstSeen [BEq α] (xs : List α) : List α :=
  distinctFirstSeenAux [] xs

/-- Semantics of `numpy.unique`: the distinct values in ascending order.
This is the class list computed by `sklearn.preprocessing.LabelEncoder.fit`
(stored as `classes_`). -/
def sortedUnique [BEq α] [LinearOrder α] (xs : List α) : List α :=
  (distinctFirstSeen xs).insertionSort (· ≤ ·)

/-- Semantics of `LabelEncoder.fit_transform(xs)`: each value is replaced by
its index in the ascending sorted list of distinct values. -/
def labelEncoderTransform [BEq α] [LinearOrder α] [DecidableEq α]
    (xs : List α) : List Nat :=
  xs.map (fun v => (sortedUnique xs).indexOf v)

/-- Encoding assigned by first-seen-label ordering (the k-th distinct label
in order of first appearance receives code k).  This definition follows the
specification text, to be compared with `labelEncoderTransform`, the
encoding the source actually computes. -/
def firstSeenTransform [BEq α] [DecidableEq α] (xs : List α) : List Nat :=
  xs.map (fun v => (distinctFirstSeen xs).indexOf v)

namespace TrainPipeline

/-- Fixed dataset path of the training job (`DATA_PATH`). -/
def DATA_PATH : String := "/opt/airflow/data/dataset.csv"

/-- Fixed model artifact path the training job serializes to (`MODEL_PATH`). -/
def MODEL_PATH : String := "/opt/airflow/models/model.pkl"

/-- The fitted-model artifact produced by `train_model` and serialized by
`joblib.dump`: a logistic-regression object; we record the data it was fit
on, the feature column names seen at fit time (sklearn
`feature_names_in_`) and the class list (sklearn `classes_`, the sorted
distinct target values). -/
structure TrainedModel where
  featureNames : List String
  Xdata : Df
  ydata : List String
  classes : List String
deriving DecidableEq

/-- The encode step inside `load_data`: when a `smoker` column exists, its
values are replaced by the `LabelEncoder.fit_transform` codes (rendered
back as cells); otherwise the dataframe is unchanged. -/
def encode_smoker (df : Df) : Df :=
  if (df.columns).contains "smoker" then
    df.map (fun c =>
      if c.1 == "smoker" then (c.1, (labelEncoderTransform c.2).map toString)
      else c)
  else df

/-- Embedding of `load_data()`: the dataset file is read (FileNotFoundError
when absent) and the `smoker` column, when present, is label-encoded. -/
def load_data (ds : Option Df) : Except String Df :=
  match ds with
  | none => .error ("FileNotFoundError: " ++ DATA_PATH)
  | some df => .ok (encode_smoker df)

/-- Embedding of `train_model(df)`: `X = df.drop(columns=["target",
"patient_id"])`, `y = df["target"]`, then `LogisticRegression(...).fit(X, y)`.
Either dataframe operation propagates its KeyError. -/
def train_model (df : Df) : Except String TrainedModel := do
  let X ← df.drop ["target", "patient_id"]
  let y ← df.getCol "target"
  .ok ⟨X.columns, X, y, sortedUnique y⟩

/-- The filesystem, shared by both processes: a map from path to the model
artifact stored there. -/
abbrev FS : Type := String → Option TrainedModel

/-- Write the artifact at `MODEL_PATH` (`joblib.dump`), overwriting. -/
def dumpModel (fs : FS) (m : TrainedModel) : FS :=
  fun p => if p = MODEL_PATH then some m else fs p

/-- Embedding of `train_and_save_model()`: load, train, then persist.  An
exception in an earlier step propagates and the filesystem is returned
unchanged; only after `train_model` returns successfully is the artifact
written. -/
def train_and_save_model (ds : Option Df) (fs : FS) :
    Except String Unit × FS :=
  match load_data ds with
  | .error e => (.error e, fs)
  | .ok df =>
    match train_model df with
    | .error e => (.error e, fs)
    | .ok m => (.ok (), dumpModel fs m)

end TrainPipeline

namespace Api

/-- Fixed model artifact path the serving endpoint loads from (`MODEL_PATH`
in `src/api/main.py`). -/
def MODEL_PATH : String := "models/model.pkl"

/-- Embedding of the module-level startup code of `src/api/main.py`: if no
file exists at `MODEL_PATH` a `FileNotFoundError` is raised (the module, and
with it the process, fails to come up); otherwise the artifact is
deserialized once and held for the process lifetime. -/
def startup (fs : TrainPipeline.FS) : Except String TrainPipeline.TrainedModel :=
  match fs MODEL_PATH with
  | none => .error ("FileNotFoundError: Model file not found at " ++ MODEL_PATH)
  | some m => .ok m

/-- The `PredictionRequest` pydantic schema: five float fields and the
integer `smoker` flag, already validated and coerced by the schema layer.
The numeric cell type `α` is a parameter of the embedding (`ℚ` for
executable instances, `ℝ` for the logistic-regression analysis). -/
structure PredictionRequest (α : Type) where
  age : α
  bmi : α
  blood_pressure : α
  cholesterol : α
  glucose : α
  smoker : Int
deriving DecidableEq

/-- The single-row feature record `pd.DataFrame([data])` assembled inside
`predict`: the six fields with their hard-coded column names, in the
insertion order of the Python dict literal. -/
def buildRow [IntCast α] (r : PredictionRequest α) : List (String × α) :=
  [("age", r.age), ("bmi", r.bmi), ("blood_pressure", r.blood_pressure),
   ("cholesterol", r.cholesterol), ("glucose", r.glucose),
   ("smoker", (r.smoker : α))]

/-- The deserialized model object as the predict handler uses it: its
`predict` capability yields the predicted class label of the single row and
its `predict_proba` capability yields the per-class probability vector.
Either invocation may raise, modelled as `Except` with the exception's
message. -/
structure SkModel (α : Type) where
  predict : List (String × α) → Except String Int
  predict_proba : List (String × α) → Except String (List α)

/-- The body of a successful `POST /predict` response:
`{"prediction": int(prediction), "probability": probability}`. -/
structure PredictResponse (α : Type) where
  prediction : Int
  probability : List α
deriving DecidableEq

/-- `HTTPException(status_code=500, detail=str(e))`. -/
structure HTTPError where
  status_code : Nat
  detail : String
deriving DecidableEq

/-- Embedding of the `predict` handler: assemble the row, call
`model.predict` then `model.predict_proba`, return prediction and
probability list; any exception raised inside the `try` block is caught and
re-raised as an `HTTPException` with status 500 carrying the exception's
message. -/
def predict (m : SkModel α) [IntCast α] (request : PredictionRequest α) :
    Except HTTPError (PredictResponse α) :=
  let df := buildRow request
  match m.predict df with
  | .error e => .error ⟨500, e⟩
  | .ok pred =>
    match m.predict_proba df with
    | .error e => .error ⟨500, e⟩
    | .ok proba => .ok ⟨pred, proba⟩

/-- The `GET /health` handler: ignores the server state (the loaded model)
and returns status 200 with the static body; it is total — no exception
path exists.  The state is returned unchanged: the handler has no side
effects. -/
def health (m : SkModel α) :
    (Nat × List (String × String)) × SkModel α :=
  ((200, [("status", "healthy")]), m)

/-- Sequential request processing by the long-running endpoint process: the
loaded model is immutable process-wide state and each request is handled
independently by the `predict` handler. -/
def serve (m : SkModel α) [IntCast α] (reqs : List (PredictionRequest α)) :
    List (Except HTTPError (PredictResponse α)) :=
  reqs.map (predict m)

/-- The whole endpoint process: startup (model load) followed by request
serving.  `interp` is the deserialization of the artifact blob into the
in-memory model object (`joblib.load`).  If startup fails no request is
ever served. -/
def runServer [IntCast α] (interp : TrainPipeline.TrainedModel → SkModel α)
    (fs : TrainPipeline.FS) (reqs : List (PredictionRequest α)) :
    Except String (List (Except HTTPError (PredictResponse α))) :=
  match startup fs with
  | .error e => .error e
  | .ok art => .ok (serve (interp art) reqs)

end Api

/-- Modelled from the spec: the training dataset CSV at
`/opt/airflow/data/dataset.csv` is not part of the repository; §3 of the
spec fixes the training record columns as
`age, bmi, blood_pressure, cholesterol, glucose, smoker, target,
patient_id`, in that order. -/
def specDatasetColumns : List String :=
  ["age", "bmi", "blood_pressure", "cholesterol", "glucose", "smoker",
   "target", "patient_id"]

/-- The standard logistic sigmoid used by binary
`LogisticRegression.predict_proba` (floating-point arithmetic modelled over
the reals). -/
noncomputable def sigmoid (z : ℝ) : ℝ := 1 / (1 + Real.exp (-z))

/-- A fitted binary `LogisticRegression` object as the serving endpoint
holds it in memory: the sorted distinct training labels (`classes_`), the
coefficient vector (`coef_`) and the intercept (`intercept_`). -/
structure LRModel where
  classes : List Int
  coef : List ℝ
  intercept : ℝ

/-- `classes_` produced by `LogisticRegression.fit(X, y)`: the distinct
labels of `y` in ascending order (`numpy.unique`). -/
def lrFitClasses (y : List Int) : List Int := sortedUnique y

/-- `decision_function`: the affine score `coef · x + intercept`. -/
noncomputable def lrDecision (m : LRModel) (x : List ℝ) : ℝ :=
  (List.zipWith (· * ·) m.coef x).sum + m.intercept

/-- Binary `LogisticRegression.predict`: `classes_[1]` when the decision
score is positive, else `classes_[0]`. -/
noncomputable def lrPredict (m : LRModel) (x : List ℝ) : Int :=
  if 0 < lrDecision m x then m.classes.getD 1 0 else m.classes.getD 0 0

/-- Binary `LogisticRegression.predict_proba`: the pair
`[1 - σ(score), σ(score)]`, one entry per class in `classes_` order. -/
noncomputable def lrPredictProba (m : LRModel) (x : List ℝ) : List ℝ :=
  [1 - sigmoid (lrDecision m x), sigmoid (lrDecision m x)]

/-- The in-memory model object the endpoint obtains from `joblib.load` when
the artifact is a fitted binary logistic regression: both capabilities are
total (inference itself raises no exception). -/
noncomputable def lrToSk (m : LRModel) : Api.SkModel ℝ :=
  ⟨fun row => .ok (lrPredict m (row.map Prod.snd)),
   fun row => .ok (lrPredictProba m (row.map Prod.snd))⟩

/-! ## Helper lemmas -/

theorem mem_of_mem_distinctFirstSeenAux [BEq α] {a : α} :
    ∀ {seen xs : List α}, a ∈ distinctFirstSeenAux seen xs → a ∈ xs := by
  intro seen xs h
  induction xs generalizing seen with
  | nil => simp [distinctFirstSeenAux] at h
  | cons x xs ih =>
    simp only [distinctFirstSeenAux] at h
    split at h
    · exact List.mem_cons_of_mem _ (ih h)
    · rcases List.mem_cons.1 h with h | h
      · exact h ▸ List.mem_cons_self _ _
      · exact List.mem_cons_of_mem _ (ih h)

theorem not_mem_seen_of_mem_distinctFirstSeenAux [BEq α] [LawfulBEq α] {a : α} :
    ∀ {seen xs : List α}, a ∈ distinctFirstSeenAux seen xs → a ∉ seen := by
  intro seen xs h
  induction xs generalizing seen with
  | nil => simp [distinctFirstSeenAux] at h
  | cons x xs ih =>
    simp only [distinctFirstSeenAux] at h
    split at h
    · exact ih h
    · rename_i hc
      rcases List.mem_cons.1 h with h | h
      · subst h
        simpa [List.elem_iff] using hc
      · intro hs
        exact ih h (List.mem_cons_of_mem _ hs)

theorem nodup_distinctFirstSeenAux [BEq α] [LawfulBEq α] :
    ∀ (seen xs : List α), (distinctFirstSeenAux seen xs).Nodup := by
  intro seen xs
  induction xs generalizing seen with
  | nil => simp [distinctFirstSeenAux]
  | cons x xs ih =>
    simp only [distinctFirstSeenAux]
    split
    · exact ih seen
    · refine List.nodup_cons.2 ⟨fun hx => ?_, ih (x :: seen)⟩
      exact not_mem_seen_of_mem_distinctFirstSeenAux hx (List.mem_cons_self _ _)

theorem mem_distinctFirstSeenAux_of_mem [BEq α] [LawfulBEq α] {a : α} :
    ∀ {seen xs : List α}, a ∈ xs → a ∉ seen → a ∈ distinctFirstSeenAux seen xs := by
  intro seen xs hx hs
  induction xs generalizing seen with
  | nil => simp at hx
  | cons x xs ih =>
    simp only [distinctFirstSeenAux]
    rcases List.mem_cons.1 hx with h | h
    · subst h
      have hc : seen.contains a = false := by
        simp [List.elem_iff]
        exact hs
      simp [hc, hs]
    · split
      · exact ih h hs
      · rename_i hc
        by_cases hax : a = x
        · exact hax ▸ List.mem_cons_self _ _
        · refine List.mem_cons_of_mem _ (ih h ?_)
          simp only [List.mem_cons, not_or]
          exact ⟨hax, hs⟩

theorem mem_distinctFirstSeen [BEq α] [LawfulBEq α] {a : α} {xs : List α} :
    a ∈ distinctFirstSeen xs ↔ a ∈ xs :=
  ⟨mem_of_mem_distinctFirstSeenAux,
   fun h => mem_distinctFirstSeenAux_of_mem h (List.not_mem_nil a)⟩

theorem nodup_distinctFirstSeen [BEq α] [LawfulBEq α] (xs : List α) :
    (distinctFirstSeen xs).Nodup :=
  nodup_distinctFirstSeenAux [] xs

theorem sortedUnique_perm [BEq α] [LinearOrder α] (xs : List α) :
    List.Perm (sortedUnique xs) (distinctFirstSeen xs) :=
  List.perm_insertionSort _ _

theorem mem_sortedUnique [BEq α] [LawfulBEq α] [LinearOrder α] {a : α}
    {xs : List α} : a ∈ sortedUnique xs ↔ a ∈ xs :=
  ((sortedUnique_perm xs).mem_iff).trans mem_distinctFirstSeen

theorem nodup_sortedUnique [BEq α] [LawfulBEq α] [LinearOrder α]
    (xs : List α) : (sortedUnique xs).Nodup :=
  ((sortedUnique_perm xs).nodup_iff).2 (nodup_distinctFirstSeen xs)

theorem Df.drop_error_of_not_mem {df : Df} {names : List String} {n : String}
    (hn : n ∈ names) (h : n ∉ df.columns) :
    df.drop names = .error "KeyError: not found in axis" := by
  unfold Df.drop
  rw [if_neg]
  intro hall
  have := (List.all_eq_true.1 hall) n hn
  exact h (List.elem_iff.1 this)

theorem Df.columns_encode_smoker (df : Df) :
    (TrainPipeline.encode_smoker df).columns = df.columns := by
  unfold TrainPipeline.encode_smoker
  split
  · unfold Df.columns
    rw [List.map_map]
    refine List.map_congr_left (fun c _ => ?_)
    simp only [Function.comp_apply]
    split <;> rfl
  · rfl

theorem TrainPipeline.train_model_error {df : Df} {n : String}
    (hn : n ∈ ["target", "patient_id"]) (h : n ∉ df.columns) :
    TrainPipeline.train_model df = .error "KeyError: not found in axis" := by
  unfold TrainPipeline.train_model
  rw [Df.drop_error_of_not_mem hn h]
  rfl

theorem TrainPipeline.train_and_save_model_error {raw : Df} {n : String}
    (fs : TrainPipeline.FS)
    (hn : n ∈ ["target", "patient_id"]) (h : n ∉ raw.columns) :
    TrainPipeline.train_and_save_model (some raw) fs =
      (.error "KeyError: not found in axis", fs) := by
  have hcols : (TrainPipeline.encode_smoker raw).columns = raw.columns :=
    Df.columns_encode_smoker raw
  have htm := TrainPipeline.train_model_error hn (hcols ▸ h)
  simp [TrainPipeline.train_and_save_model, TrainPipeline.load_data, htm]

theorem Df.getCol_encode_smoker {df : Df} {xs : List String}
    (h : df.getCol "smoker" = .ok xs) :
    (TrainPipeline.encode_smoker df).getCol "smoker" =
      .ok ((labelEncoderTransform xs).map toString) := by
  unfold Df.getCol at h
  set p : String × List String → Bool := fun c => c.1 == "smoker" with hp
  rcases hf : df.find? p with _ | c
  · rw [hf] at h
    exact absurd h (by simp)
  · rw [hf] at h
    have hc2 : c.2 = xs := by simpa using h
    have hcmem : c ∈ df := List.mem_of_find?_eq_some hf
    have hc1 : c.1 = "smoker" := by
      have := List.find?_some hf
      simpa [hp] using this
    have hsm : (df.columns).contains "smoker" = true := by
      refine List.elem_iff.2 ?_
      exact hc1 ▸ List.mem_map_of_mem Prod.fst hcmem
    set f : String × List String → String × List String := fun c =>
      if c.1 == "smoker" then (c.1, (labelEncoderTransform c.2).map toString)
      else c with hfdef
    have henc : TrainPipeline.encode_smoker df = df.map f := by
      unfold TrainPipeline.encode_smoker
      rw [if_pos hsm]
    have hpf : (p ∘ f) = p := by
      funext d
      simp only [Function.comp_apply, hfdef, hp]
      split <;> simp_all
    rw [henc]
    unfold Df.getCol
    rw [List.find?_map, hpf, hf]
    simp [hfdef, hc1, hc2]

theorem Df.columns_drop {df X : Df} {names : List String}
    (h : df.drop names = .ok X) :
    X.columns = df.columns.filter (fun n => !(names.contains n)) := by
  unfold Df.drop at h
  split at h
  · have hX : X = df.filter (fun c => !(names.contains c.1)) := by
      simpa using h.symm
    subst hX
    unfold Df.columns
    rw [List.filter_map]
    rfl
  · exact absurd h (by simp)

theorem TrainPipeline.train_model_ok {df : Df} {tm : TrainPipeline.TrainedModel}
    (htm : TrainPipeline.train_model df = .ok tm) :
    ∃ X y, df.drop ["target", "patient_id"] = .ok X ∧
      df.getCol "target" = .ok y ∧
      tm = ⟨X.columns, X, y, sortedUnique y⟩ := by
  unfold TrainPipeline.train_model at htm
  rcases hd : df.drop ["target", "patient_id"] with e | X
  · rw [hd] at htm
    exact absurd htm (by simp [Bind.bind, Except.bind])
  · rw [hd] at htm
    rcases hy : df.getCol "target" with e | y
    · rw [hy] at htm
      exact absurd htm (by simp [Bind.bind, Except.bind])
    · rw [hy] at htm
      refine ⟨X, y, rfl, rfl, ?_⟩
      have := htm
      simp [Bind.bind, Except.bind] at this
      exact this.symm

theorem TrainPipeline.train_model_featureNames {df : Df}
    {tm : TrainPipeline.TrainedModel}
    (htm : TrainPipeline.train_model df = .ok tm) :
    tm.featureNames =
      df.columns.filter (fun n => !(["target", "patient_id"].contains n)) := by
  rcases TrainPipeline.train_model_ok htm with ⟨X, y, hd, _, htm'⟩
  subst htm'
  exact Df.columns_drop hd

theorem sigmoid_pos (z : ℝ) : 0 < sigmoid z := by
  unfold sigmoid
  positivity

theorem sigmoid_lt_one (z : ℝ) : sigmoid z < 1 := by
  unfold sigmoid
  rw [div_lt_one (by positivity)]
  linarith [Real.exp_pos (-z)]

/-! ## Claims -/

/-- C1 (counterexample): the path constant the training job serializes the
model to (`/opt/airflow/models/model.pkl`) is NOT equal, as a string, to
the path constant the serving endpoint deserializes from
(`models/model.pkl`). -/
theorem model_path_constants_differ :
    Api.MODEL_PATH ≠ TrainPipeline.MODEL_PATH := by decide

/-- C1 (amended): the serving endpoint's path constant is relative; the
training job's constant is exactly the prefix `/opt/airflow/` followed by
the serving constant, so the two refer to the same file precisely when the
endpoint process runs with working directory `/opt/airflow`. -/
theorem model_path_train_is_prefixed_api :
    TrainPipeline.MODEL_PATH = "/opt/airflow/" ++ Api.MODEL_PATH := by decide

/-- C2: if no model artifact exists at the serving endpoint's fixed path,
startup raises a fatal `FileNotFoundError`, the process never comes up, and
no request is ever served: `runServer` cannot return a response list. -/
theorem startup_fatal_when_artifact_missing {α : Type} [IntCast α]
    (interp : TrainPipeline.TrainedModel → Api.SkModel α)
    (fs : TrainPipeline.FS) (reqs : List (Api.PredictionRequest α))
    (h : fs Api.MODEL_PATH = none) :
    Api.runServer interp fs reqs =
      .error ("FileNotFoundError: Model file not found at " ++ Api.MODEL_PATH) ∧
    ∀ rs, Api.runServer interp fs reqs ≠ .ok rs := by
  have hstart : Api.startup fs =
      .error ("FileNotFoundError: Model file not found at " ++ Api.MODEL_PATH) := by
    unfold Api.startup
    rw [h]
  have hrun : Api.runServer interp fs reqs =
      .error ("FileNotFoundError: Model file not found at " ++ Api.MODEL_PATH) := by
    unfold Api.runServer
    rw [hstart]
  exact ⟨hrun, fun rs hok => by simp [hrun] at hok⟩

/-- Witness for C2 at the empty filesystem. -/
theorem startup_fatal_when_artifact_missing_witness :
    ((fun _ => none) : TrainPipeline.FS) Api.MODEL_PATH = none ∧
    Api.runServer
        ((fun _ => ⟨fun _ => .error "", fun _ => .error ""⟩) :
          TrainPipeline.TrainedModel → Api.SkModel ℚ)
        (fun _ => none) [] =
      .error ("FileNotFoundError: Model file not found at " ++ Api.MODEL_PATH) :=
  ⟨rfl, (startup_fatal_when_artifact_missing _ _ _ rfl).1⟩

/-- C5: training on a dataset with no `target` column aborts with a
propagated error and returns the filesystem unchanged — in particular the
pre-existing model artifact (if any) is neither written nor overwritten. -/
theorem training_aborts_without_target {raw : Df} {fs : TrainPipeline.FS}
    (h : "target" ∉ raw.columns) :
    (TrainPipeline.train_and_save_model (some raw) fs).1 =
      .error "KeyError: not found in axis" ∧
    (TrainPipeline.train_and_save_model (some raw) fs).2 = fs := by
  have he := TrainPipeline.train_and_save_model_error fs
    (show "target" ∈ ["target", "patient_id"] by simp) h
  simp [he]

/-- Witness for C5 on a one-column dataset without `target`. -/
theorem training_aborts_without_target_witness :
    "target" ∉ Df.columns [("age", ["1"])] ∧
    (TrainPipeline.train_and_save_model (some [("age", ["1"])])
        (fun _ => none)).1 = .error "KeyError: not found in axis" :=
  ⟨by decide, (training_aborts_without_target (by decide)).1⟩

/-- C10: training also aborts, writing no artifact, when the `patient_id`
column is absent — even when `target` is present — because the feature
split drops both columns in a single `drop` that raises if either is
missing. -/
theorem training_aborts_without_patient_id {raw : Df} {fs : TrainPipeline.FS}
    (h : "patient_id" ∉ raw.columns) :
    (TrainPipeline.train_and_save_model (some raw) fs).1 =
      .error "KeyError: not found in axis" ∧
    (TrainPipeline.train_and_save_model (some raw) fs).2 = fs := by
  have he := TrainPipeline.train_and_save_model_error fs
    (show "patient_id" ∈ ["target", "patient_id"] by simp) h
  simp [he]

/-- Witness for C10 on a dataset that has `target` but no `patient_id`. -/
theorem training_aborts_without_patient_id_witness :
    "target" ∈ Df.columns [("target", ["1"])] ∧
    "patient_id" ∉ Df.columns [("target", ["1"])] ∧
    (TrainPipeline.train_and_save_model (some [("target", ["1"])])
        (fun _ => none)).1 = .error "KeyError: not found in axis" :=
  ⟨by decide, by decide,
   (training_aborts_without_patient_id (by decide)).1⟩

/-- C9: the health operation takes no request data, always returns the
static body `{"status": "healthy"}` with HTTP 200, leaves the server state
unchanged (no side effects), and is total — its result does not even depend
on the loaded model. -/
theorem health_returns_static_ok {α : Type} (m m' : Api.SkModel α) :
    Api.health m = ((200, [("status", "healthy")]), m) ∧
    (Api.health m).1 = (Api.health m').1 :=
  ⟨rfl, rfl⟩

/-- C6: any exception raised during model invocation inside the predict
handler is caught at that boundary and converted to an HTTP 500 whose
detail is exactly the underlying exception's message; no partial result is
produced and the process goes on serving the remaining requests. -/
theorem predict_exception_to_500 {α : Type} [IntCast α] (m : Api.SkModel α)
    (req : Api.PredictionRequest α) (rest : List (Api.PredictionRequest α))
    (e : String)
    (h : m.predict (Api.buildRow req) = .error e ∨
      ∃ p, m.predict (Api.buildRow req) = .ok p ∧
        m.predict_proba (Api.buildRow req) = .error e) :
    Api.predict m req = .error ⟨500, e⟩ ∧
    Api.serve m (req :: rest) = .error ⟨500, e⟩ :: Api.serve m rest := by
  have hp : Api.predict m req = .error ⟨500, e⟩ := by
    rcases h with h | ⟨p, hpred, hproba⟩
    · simp [Api.predict, h]
    · simp [Api.predict, hpred, hproba]
  exact ⟨hp, by simp [Api.serve, hp]⟩

/-- Witness for C6 with a model whose invocation always raises `boom`. -/
theorem predict_exception_to_500_witness :
    Api.predict (⟨fun _ => .error "boom", fun _ => .error "boom"⟩ :
        Api.SkModel ℚ)
      ⟨0, 0, 0, 0, 0, 0⟩ = .error ⟨500, "boom"⟩ :=
  (predict_exception_to_500 _ _ [] "boom" (Or.inl rfl)).1

/-- C8: with the loaded model fixed, the predict operation is
deterministic: identical request records anywhere in the request stream
receive identical responses (same predicted class and probability
vector). -/
theorem predict_deterministic {α : Type} [IntCast α] (m : Api.SkModel α)
    (reqs : List (Api.PredictionRequest α)) (i j : Nat)
    (hij : reqs[i]? = reqs[j]?) :
    (Api.serve m reqs)[i]? = (Api.serve m reqs)[j]? := by
  unfold Api.serve
  rw [List.getElem?_map, List.getElem?_map, hij]

/-- Witness for C8: the same record sent twice gets the same response. -/
theorem predict_deterministic_witness :
    ([⟨1, 2, 3, 4, 5, 1⟩, ⟨1, 2, 3, 4, 5, 1⟩] :
        List (Api.PredictionRequest ℚ))[0]? =
      ([⟨1, 2, 3, 4, 5, 1⟩, ⟨1, 2, 3, 4, 5, 1⟩] :
        List (Api.PredictionRequest ℚ))[1]? ∧
    (Api.serve (⟨fun _ => .ok 1, fun _ => .ok [1]⟩ : Api.SkModel ℚ)
        [⟨1, 2, 3, 4, 5, 1⟩, ⟨1, 2, 3, 4, 5, 1⟩])[0]? =
      (Api.serve (⟨fun _ => .ok 1, fun _ => .ok [1]⟩ : Api.SkModel ℚ)
        [⟨1, 2, 3, 4, 5, 1⟩, ⟨1, 2, 3, 4, 5, 1⟩])[1]? :=
  ⟨rfl, predict_deterministic _ _ 0 1 rfl⟩

/-- C3 (counterexample): on the dataset whose `smoker` column is
`["yes", "no"]`, first-seen ordering would assign yes↦0, no↦1, but the
encode step of the training job assigns yes↦1, no↦0: `LabelEncoder` orders
the distinct labels by ascending sort, not by first appearance. -/
theorem smoker_encoding_not_first_seen :
    (∃ df', TrainPipeline.load_data (some [("smoker", ["yes", "no"])]) =
        .ok df' ∧
      df'.getCol "smoker" =
        .ok ((labelEncoderTransform ["yes", "no"]).map toString)) ∧
    labelEncoderTransform ["yes", "no"] = [1, 0] ∧
    firstSeenTransform ["yes", "no"] = [0, 1] ∧
    labelEncoderTransform ["yes", "no"] ≠ firstSeenTransform ["yes", "no"] := by
  have hsu : sortedUnique ["yes", "no"] = ["no", "yes"] := by
    simp [sortedUnique, distinctFirstSeen, distinctFirstSeenAux,
      List.insertionSort, List.orderedInsert]
    decide
  have ht : labelEncoderTransform ["yes", "no"] = [1, 0] := by
    unfold labelEncoderTransform
    rw [hsu]
    decide
  have hf : firstSeenTransform ["yes", "no"] = [0, 1] := by decide
  refine ⟨⟨TrainPipeline.encode_smoker [("smoker", ["yes", "no"])], rfl,
    Df.getCol_encode_smoker rfl⟩, ht, hf, ?_⟩
  rw [ht, hf]
  decide

/-- C3 (amended): in the training job's encode step, for every loaded
dataset containing a `smoker` column, that column's values are replaced by
integer codes assigned by ascending sorted-label ordering: the k-th
distinct label value, in ascending sort order, is mapped to integer code
k. -/
theorem smoker_encoding_sorted_order {df : Df} {xs : List String}
    (h : df.getCol "smoker" = .ok xs) (k i : Nat) (lab : String)
    (hk : (sortedUnique xs)[k]? = some lab) (hi : xs[i]? = some lab) :
    ∃ df', TrainPipeline.load_data (some df) = .ok df' ∧
      df'.getCol "smoker" =
        .ok ((labelEncoderTransform xs).map toString) ∧
      (labelEncoderTransform xs)[i]? = some k := by
  refine ⟨TrainPipeline.encode_smoker df, rfl, Df.getCol_encode_smoker h, ?_⟩
  unfold labelEncoderTransform
  rw [List.getElem?_map, hi, Option.map_some']
  congr 1
  rcases List.getElem?_eq_some.1 hk with ⟨hklt, hkget⟩
  rw [← hkget]
  exact List.indexOf_getElem (nodup_sortedUnique xs) k hklt

/-- Witness for the amended C3: on the column `["yes", "no"]` the label
`yes` sits at sorted position 1 and is encoded as 1. -/
theorem smoker_encoding_sorted_order_witness :
    Df.getCol [("smoker", ["yes", "no"])] "smoker" =
      .ok ["yes", "no"] ∧
    (sortedUnique ["yes", "no"])[1]? = some "yes" ∧
    (["yes", "no"] : List String)[0]? = some "yes" ∧
    (labelEncoderTransform ["yes", "no"])[0]? = some 1 := by
  have hsu : sortedUnique ["yes", "no"] = ["no", "yes"] := by
    simp [sortedUnique, distinctFirstSeen, distinctFirstSeenAux,
      List.insertionSort, List.orderedInsert]
    decide
  have hk : (sortedUnique ["yes", "no"])[1]? = some "yes" := by
    rw [hsu]
    rfl
  refine ⟨rfl, hk, rfl, ?_⟩
  rcases smoker_encoding_sorted_order
    (show Df.getCol [("smoker", ["yes", "no"])] "smoker" =
      .ok ["yes", "no"] from rfl) 1 0 "yes" hk rfl
    with ⟨df', _, _, henc⟩
  exact henc

/-- C4: for every valid six-field request on which the model invocation
succeeds, the predict operation assembles the fields into a single-row
record with columns exactly `age, bmi, blood_pressure, cholesterol,
glucose, smoker` — the same column set and order as the feature matrix of
any training run on a dataset with the spec's schema — invokes the model's
predict and predict-probability capabilities on that record, and returns
the predicted class as an integer together with the per-class probability
list. -/
theorem predict_assembles_training_feature_row {α : Type} [IntCast α]
    (m : Api.SkModel α) (req : Api.PredictionRequest α)
    (df : Df) (tm : TrainPipeline.TrainedModel) (p : Int) (pr : List α)
    (hcols : df.columns = specDatasetColumns)
    (htm : TrainPipeline.train_model df = .ok tm)
    (hp : m.predict (Api.buildRow req) = .ok p)
    (hpr : m.predict_proba (Api.buildRow req) = .ok pr) :
    (Api.buildRow req).map Prod.fst =
      ["age", "bmi", "blood_pressure", "cholesterol", "glucose", "smoker"] ∧
    tm.featureNames = (Api.buildRow req).map Prod.fst ∧
    Api.predict m req = .ok ⟨p, pr⟩ := by
  have hrow : (Api.buildRow req).map Prod.fst =
      ["age", "bmi", "blood_pressure", "cholesterol", "glucose", "smoker"] := rfl
  refine ⟨hrow, ?_, ?_⟩
  · rw [TrainPipeline.train_model_featureNames htm, hcols, hrow]
    decide
  · simp [Api.predict, hp, hpr]

/-- Witness for C4 on the spec-schema dataset with empty columns and a
model invocation that returns class 0 with an empty probability list. -/
theorem predict_assembles_training_feature_row_witness :
    Df.columns [("age", []), ("bmi", []), ("blood_pressure", []),
      ("cholesterol", []), ("glucose", []), ("smoker", []),
      ("target", []), ("patient_id", [])] = specDatasetColumns ∧
    TrainPipeline.train_model [("age", []), ("bmi", []),
      ("blood_pressure", []), ("cholesterol", []), ("glucose", []),
      ("smoker", []), ("target", []), ("patient_id", [])] =
      .ok ⟨["age", "bmi", "blood_pressure", "cholesterol", "glucose",
        "smoker"],
        [("age", []), ("bmi", []), ("blood_pressure", []),
         ("cholesterol", []), ("glucose", []), ("smoker", [])], [], []⟩ ∧
    Api.predict (⟨fun _ => .ok 0, fun _ => .ok []⟩ : Api.SkModel ℚ)
      ⟨45, 28, 130, 210, 95, 1⟩ = .ok ⟨0, []⟩ :=
  ⟨rfl, rfl,
   (predict_assembles_training_feature_row
     (⟨fun _ => .ok 0, fun _ => .ok []⟩ : Api.SkModel ℚ)
     ⟨45, 28, 130, 210, 95, 1⟩
     [("age", []), ("bmi", []), ("blood_pressure", []), ("cholesterol", []),
      ("glucose", []), ("smoker", []), ("target", []), ("patient_id", [])]
     ⟨["age", "bmi", "blood_pressure", "cholesterol", "glucose", "smoker"],
      [("age", []), ("bmi", []), ("blood_pressure", []), ("cholesterol", []),
       ("glucose", []), ("smoker", [])], [], []⟩
     0 [] rfl rfl rfl rfl).2.2⟩

/-- C7: for every request on a fitted binary logistic-regression model whose
classes are those seen during training, predict succeeds and returns a
prediction among the training labels and a probability vector with one
entry per class, every entry in [0,1], summing exactly to 1 (real-valued
model of the floating-point computation). -/
theorem predict_proba_well_formed (m : LRModel) (y : List Int)
    (req : Api.PredictionRequest ℝ)
    (hcls : m.classes = lrFitClasses y)
    (hlen : m.classes.length = 2) :
    ∃ resp : Api.PredictResponse ℝ,
      Api.predict (lrToSk m) req = .ok resp ∧
      resp.prediction ∈ y ∧
      resp.probability.length = m.classes.length ∧
      (∀ p ∈ resp.probability, 0 ≤ p ∧ p ≤ 1) ∧
      resp.probability.sum = 1 := by
  refine ⟨⟨lrPredict m ((Api.buildRow req).map Prod.snd),
    lrPredictProba m ((Api.buildRow req).map Prod.snd)⟩, rfl, ?_, ?_, ?_, ?_⟩
  · have hmem : lrPredict m ((Api.buildRow req).map Prod.snd) ∈ m.classes := by
      unfold lrPredict
      split
      · rw [List.getD_eq_getElem _ _ (by omega)]
        exact List.getElem_mem _
      · rw [List.getD_eq_getElem _ _ (by omega)]
        exact List.getElem_mem _
    rw [hcls] at hmem
    unfold lrFitClasses at hmem
    exact mem_sortedUnique.1 hmem
  · simp [lrPredictProba, hlen]
  · intro p hp
    have hs0 := sigmoid_pos (lrDecision m ((Api.buildRow req).map Prod.snd))
    have hs1 := sigmoid_lt_one (lrDecision m ((Api.buildRow req).map Prod.snd))
    simp only [lrPredictProba, List.mem_cons, List.not_mem_nil, or_false,
      List.mem_singleton] at hp
    rcases hp with rfl | rfl
    · constructor <;> linarith
    · constructor <;> linarith
  · simp only [lrPredictProba, List.sum_cons, List.sum_nil]
    ring

/-- Witness for C7 on the model fitted to labels [0, 1] with zero weights. -/
theorem predict_proba_well_formed_witness :
    (⟨lrFitClasses [0, 1], [1, 1, 1, 1, 1, 1], 0⟩ : LRModel).classes =
      lrFitClasses [0, 1] ∧
    (⟨lrFitClasses [0, 1], [1, 1, 1, 1, 1, 1], 0⟩ : LRModel).classes.length
      = 2 ∧
    ∃ resp : Api.PredictResponse ℝ,
      Api.predict (lrToSk ⟨lrFitClasses [0, 1], [1, 1, 1, 1, 1, 1], 0⟩)
        ⟨45, 28, 130, 210, 95, 1⟩ = .ok resp ∧
      resp.prediction ∈ [0, 1] ∧
      resp.probability.length =
        (⟨lrFitClasses [0, 1], [1, 1, 1, 1, 1, 1], 0⟩ : LRModel).classes.length ∧
      (∀ p ∈ resp.probability, 0 ≤ p ∧ p ≤ 1) ∧
      resp.probability.sum = 1 :=
  ⟨rfl, by decide,
   predict_proba_well_formed ⟨lrFitClasses [0, 1], [1, 1, 1, 1, 1, 1], 0⟩
     [0, 1] ⟨45, 28, 130, 210, 95, 1⟩ rfl (by decide)⟩
